import Mathlib

/-!
Shallow embedding of the resilience core of the InternalAPI gateway:
the per-service circuit breaker (internal/circuitbreaker), the token-bucket
rate limiter and JWT validation/revocation middleware (internal/middleware),
the external-call dispatcher (internal/services/external.go), the auth
handlers (internal/handlers) and the route wiring (internal/routes/routes.go).

Timestamps and durations are modelled as integers (a fixed time unit);
`time.Since(t)` at instant `now` is `now - t`.  Go `int`/`int64` counters are
modelled as `Int` (no claim touches overflow).  Each `Call` is modelled as an
atomic step taking the instant `now` at which it runs: the source holds the
breaker's mutex for the whole body, so the two `time.Now()` readings inside a
single call are identified.
-/

/-- States of a circuit breaker (`StateClosed`, `StateOpen`, `StateHalfOpen`
in internal/circuitbreaker).  `opened` stands for the source's `StateOpen`
(`open` is a Lean keyword). -/
inductive CircuitState where
  | closed
  | opened
  | halfOpen
deriving DecidableEq, Repr

/-- The `CircuitBreaker` struct: configuration (`failureThreshold`,
`timeout`) and mutable state (`state`, `failures`, `lastFailTime`).
`maxRetries` and `retryDelay` are stored by the source but never read, so
they are omitted. -/
structure CircuitBreaker where
  failureThreshold : Int
  timeout : Int
  state : CircuitState
  failures : Int
  lastFailTime : Int
deriving DecidableEq, Repr

/-- The `ServiceMetrics` struct paired 1:1 with each breaker by `Init`. -/
structure ServiceMetrics where
  totalCalls : Int
  successCalls : Int
  failureCalls : Int
  circuitOpen : Bool
  lastCallTime : Int
deriving DecidableEq, Repr

/-- Outcome of `CircuitBreaker.Call`: the fast-reject "circuit breaker is
open" error, the wrapped operation's own error, or success (nil). -/
inductive CallOutcome where
  | circuitOpenErr
  | opErr
  | ok
deriving DecidableEq, Repr

/-- Result of one `Call` step: updated breaker, updated metrics, the returned
error classification, and whether the wrapped operation `fn` was invoked. -/
structure CallResult where
  cb : CircuitBreaker
  metrics : ServiceMetrics
  outcome : CallOutcome
  invoked : Bool
deriving DecidableEq, Repr

/-- `circuitbreaker.Init`: a fresh breaker, state Closed, zero failures
(`lastFailTime` is Go's zero time, modelled as instant 0). -/
def CircuitBreaker.init (failureThreshold timeout : Int) : CircuitBreaker :=
  { failureThreshold := failureThreshold,
    timeout := timeout,
    state := CircuitState.closed,
    failures := 0,
    lastFailTime := 0 }

/-- The zero-valued `ServiceMetrics{}` created by `Init`. -/
def ServiceMetrics.init : ServiceMetrics :=
  { totalCalls := 0, successCalls := 0, failureCalls := 0,
    circuitOpen := false, lastCallTime := 0 }

/-- `CircuitBreaker.Call` from internal/circuitbreaker, with the metrics
entry that `Init` pairs with the breaker (the source's `metrics != nil`
branch always holds for breakers created by `Init`).  `opFails` is the
result of the wrapped operation `fn` if it is invoked: `true` means `fn`
returns a non-nil error.  Mirrors the source line by line: fast-reject while
Open within `timeout` of `lastFailTime` (no metrics update); otherwise an
Open breaker moves to HalfOpen, `fn` runs, `TotalCalls`/`LastCallTime` are
updated, and the failure or success branch updates counters and state. -/
def CircuitBreaker.call (cb : CircuitBreaker) (m : ServiceMetrics)
    (now : Int) (opFails : Bool) : CallResult :=
  if cb.state = CircuitState.opened ∧ now - cb.lastFailTime < cb.timeout then
    { cb := cb, metrics := m, outcome := CallOutcome.circuitOpenErr, invoked := false }
  else
    let cb1 := if cb.state = CircuitState.opened
      then { cb with state := CircuitState.halfOpen } else cb
    let m1 := { m with totalCalls := m.totalCalls + 1, lastCallTime := now }
    if opFails then
      let f := cb1.failures + 1
      let st := if cb1.failureThreshold ≤ f then CircuitState.opened else cb1.state
      let m2 := { m1 with failureCalls := m1.failureCalls + 1,
                          circuitOpen := decide (st = CircuitState.opened) }
      { cb := { cb1 with failures := f, lastFailTime := now, state := st },
        metrics := m2, outcome := CallOutcome.opErr, invoked := true }
    else
      let st := if cb1.state = CircuitState.halfOpen then CircuitState.closed else cb1.state
      let m2 := { m1 with successCalls := m1.successCalls + 1, circuitOpen := false }
      { cb := { cb1 with failures := 0, state := st },
        metrics := m2, outcome := CallOutcome.ok, invoked := true }

/-- `CircuitBreaker.Reset`: forces Closed and zeroes the failure counter. -/
def CircuitBreaker.reset (cb : CircuitBreaker) : CircuitBreaker :=
  { cb with state := CircuitState.closed, failures := 0 }

/-- A sequence of `Call`s at the given instants, each wrapping an operation
that fails (returns a non-nil error) whenever it is invoked. -/
def CircuitBreaker.failSeq (cb : CircuitBreaker) (m : ServiceMetrics) :
    List Int → CircuitBreaker × ServiceMetrics
  | [] => (cb, m)
  | t :: ts =>
    let r := cb.call m t true
    CircuitBreaker.failSeq r.cb r.metrics ts

lemma call_preserves_config (cb : CircuitBreaker) (m : ServiceMetrics)
    (now : Int) (b : Bool) :
    (cb.call m now b).cb.failureThreshold = cb.failureThreshold ∧
    (cb.call m now b).cb.timeout = cb.timeout := by
  by_cases h : cb.state = CircuitState.opened ∧ now - cb.lastFailTime < cb.timeout <;>
    cases b <;> by_cases hs : cb.state = CircuitState.opened <;>
    simp [CircuitBreaker.call, h, hs] <;> split <;> simp

lemma fail_step_opened (cb : CircuitBreaker) (m : ServiceMetrics) (now : Int)
    (hs : cb.state = CircuitState.opened)
    (hf : cb.failureThreshold ≤ cb.failures) :
    (cb.call m now true).cb.state = CircuitState.opened ∧
    cb.failureThreshold ≤ (cb.call m now true).cb.failures := by
  by_cases hcool : now - cb.lastFailTime < cb.timeout
  · simp [CircuitBreaker.call, hs, hcool, hf]
  · have hth : cb.failureThreshold ≤ cb.failures + 1 := by omega
    simp [CircuitBreaker.call, hs, hcool, hth]

lemma fail_step_closed (cb : CircuitBreaker) (m : ServiceMetrics) (now : Int)
    (hs : cb.state = CircuitState.closed) :
    (cb.call m now true).cb.failures = cb.failures + 1 ∧
    ((cb.failureThreshold ≤ cb.failures + 1 ∧
        (cb.call m now true).cb.state = CircuitState.opened) ∨
      (cb.failures + 1 < cb.failureThreshold ∧
        (cb.call m now true).cb.state = CircuitState.closed)) := by
  have h : ¬ (cb.state = CircuitState.opened ∧ now - cb.lastFailTime < cb.timeout) := by
    simp [hs]
  by_cases hth : cb.failureThreshold ≤ cb.failures + 1
  · simp [CircuitBreaker.call, h, hs, hth]
  · simp [CircuitBreaker.call, h, hs, hth]
    omega

lemma failSeq_opened (ts : List Int) (cb : CircuitBreaker) (m : ServiceMetrics)
    (hs : cb.state = CircuitState.opened)
    (hf : cb.failureThreshold ≤ cb.failures) :
    (cb.failSeq m ts).1.state = CircuitState.opened ∧
    (cb.failSeq m ts).1.failureThreshold = cb.failureThreshold ∧
    (cb.failSeq m ts).1.timeout = cb.timeout ∧
    cb.failureThreshold ≤ (cb.failSeq m ts).1.failures := by
  induction ts generalizing cb m with
  | nil => exact ⟨hs, rfl, rfl, hf⟩
  | cons t ts ih =>
    have hstep := fail_step_opened cb m t hs hf
    have hcfg := call_preserves_config cb m t true
    have hrec := ih (cb.call m t true).cb (cb.call m t true).metrics hstep.1
      (by rw [hcfg.1]; exact hstep.2)
    simp only [CircuitBreaker.failSeq]
    exact ⟨hrec.1, by rw [hrec.2.1, hcfg.1], by rw [hrec.2.2.1, hcfg.2],
      by rw [hcfg.1] at hrec; exact hrec.2.2.2⟩

lemma failSeq_from_closed (ts : List Int) (cb : CircuitBreaker) (m : ServiceMetrics)
    (hs : cb.state = CircuitState.closed)
    (hle : cb.failureThreshold ≤ cb.failures + ts.length)
    (hor : ts = [] → cb.failures + 1 ≤ cb.failureThreshold) :
    (cb.failSeq m ts).1.state = CircuitState.opened ∧
    (cb.failSeq m ts).1.failureThreshold = cb.failureThreshold ∧
    (cb.failSeq m ts).1.timeout = cb.timeout := by
  induction ts generalizing cb m with
  | nil =>
    exfalso
    simp only [List.length_nil, Nat.cast_zero, add_zero] at hle
    have := hor rfl
    omega
  | cons t ts ih =>
    have hstep := fail_step_closed cb m t hs
    have hcfg := call_preserves_config cb m t true
    simp only [CircuitBreaker.failSeq]
    rcases hstep.2 with ⟨hth, hopened⟩ | ⟨hth, hclosed⟩
    · have hrec := failSeq_opened ts (cb.call m t true).cb (cb.call m t true).metrics
        hopened (by rw [hcfg.1, hstep.1]; exact hth)
      exact ⟨hrec.1, by rw [hrec.2.1, hcfg.1], by rw [hrec.2.2.1, hcfg.2]⟩
    · have hle' : (cb.call m t true).cb.failureThreshold ≤
          (cb.call m t true).cb.failures + ts.length := by
        rw [hcfg.1, hstep.1]
        simp only [List.length_cons] at hle
        push_cast at hle ⊢
        omega
      have hor' : ts = [] → (cb.call m t true).cb.failures + 1 ≤
          (cb.call m t true).cb.failureThreshold := by
        intro _
        rw [hcfg.1, hstep.1]
        omega
      have hrec := ih (cb.call m t true).cb (cb.call m t true).metrics hclosed hle' hor'
      exact ⟨hrec.1, by rw [hrec.2.1, hcfg.1], by rw [hrec.2.2, hcfg.2]⟩

/-- Claim C1: starting from any Closed breaker (non-negative failure counter,
threshold at least one, as `Init` and `Reset` establish), any sequence of
N ≥ failureThreshold consecutive `Call`s whose operations fail leaves the
breaker Open, and a further `Call` made while the cooldown has not elapsed
since the last failure returns the circuit-open error immediately, does not
invoke the supplied operation, and changes neither breaker nor metrics. -/
theorem breaker_opens_after_threshold_failures
    (cb : CircuitBreaker) (m : ServiceMetrics) (ts : List Int)
    (hclosed : cb.state = CircuitState.closed)
    (hthr : 1 ≤ cb.failureThreshold)
    (hfail : 0 ≤ cb.failures)
    (hN : cb.failureThreshold ≤ (ts.length : Int)) :
    (cb.failSeq m ts).1.state = CircuitState.opened ∧
    (cb.failSeq m ts).1.timeout = cb.timeout ∧
    ∀ (now : Int) (b : Bool) (m' : ServiceMetrics),
      now - (cb.failSeq m ts).1.lastFailTime < cb.timeout →
      ((cb.failSeq m ts).1.call m' now b).outcome = CallOutcome.circuitOpenErr ∧
      ((cb.failSeq m ts).1.call m' now b).invoked = false ∧
      ((cb.failSeq m ts).1.call m' now b).cb = (cb.failSeq m ts).1 ∧
      ((cb.failSeq m ts).1.call m' now b).metrics = m' := by
  have hmain := failSeq_from_closed ts cb m hclosed (by omega) (by
    intro hnil
    subst hnil
    simp only [List.length_nil, Nat.cast_zero] at hN
    omega)
  refine ⟨hmain.1, hmain.2.2, ?_⟩
  intro now b m' hcool
  have hcond : (cb.failSeq m ts).1.state = CircuitState.opened ∧
      now - (cb.failSeq m ts).1.lastFailTime < (cb.failSeq m ts).1.timeout :=
    ⟨hmain.1, by rw [hmain.2.2]; exact hcool⟩
  simp [CircuitBreaker.call, hcond.1, hcond.2]

/-- Witness for C1: a fresh breaker with threshold 1 and cooldown 60; one
failing call at instant 5 opens it, and a call at instant 30 is fast-rejected
without invoking its operation. -/
theorem breaker_opens_after_threshold_failures_witness :
    ((CircuitBreaker.init 1 60).failSeq ServiceMetrics.init [5]).1.state =
      CircuitState.opened ∧
    (((CircuitBreaker.init 1 60).failSeq ServiceMetrics.init [5]).1.call
        ServiceMetrics.init 30 false).outcome = CallOutcome.circuitOpenErr ∧
    (((CircuitBreaker.init 1 60).failSeq ServiceMetrics.init [5]).1.call
        ServiceMetrics.init 30 false).invoked = false := by
  have h := breaker_opens_after_threshold_failures (CircuitBreaker.init 1 60)
    ServiceMetrics.init [5] (by decide) (by decide) (by decide) (by simp [CircuitBreaker.init])
  exact ⟨h.1, (h.2.2 30 false ServiceMetrics.init (by decide)).1,
    (h.2.2 30 false ServiceMetrics.init (by decide)).2.1⟩

/-- Breaker states that can actually occur between calls in the running
gateway: created by `Init`, then evolved by `Call` steps (the per-breaker
mutex makes each `Call` atomic) and by the administrative `Reset`. -/
inductive CircuitBreaker.Reachable : CircuitBreaker → Prop
  | init : ∀ threshold timeout, CircuitBreaker.Reachable (CircuitBreaker.init threshold timeout)
  | step : ∀ (cb : CircuitBreaker) (m : ServiceMetrics) (now : Int) (b : Bool),
      CircuitBreaker.Reachable cb → CircuitBreaker.Reachable ((cb.call m now b).cb)
  | reset : ∀ (cb : CircuitBreaker),
      CircuitBreaker.Reachable cb → CircuitBreaker.Reachable cb.reset

lemma call_preserves_invariant (cb : CircuitBreaker) (m : ServiceMetrics)
    (now : Int) (b : Bool)
    (h1 : cb.state = CircuitState.opened → cb.failureThreshold ≤ cb.failures)
    (h2 : cb.state ≠ CircuitState.halfOpen) :
    ((cb.call m now b).cb.state = CircuitState.opened →
      (cb.call m now b).cb.failureThreshold ≤ (cb.call m now b).cb.failures) ∧
    (cb.call m now b).cb.state ≠ CircuitState.halfOpen := by
  rcases hstate : cb.state with _ | _ | _
  · have hc : ¬ (cb.state = CircuitState.opened ∧ now - cb.lastFailTime < cb.timeout) := by
      simp [hstate]
    cases b
    · simp [CircuitBreaker.call, hc, hstate]
    · by_cases hth : cb.failureThreshold ≤ cb.failures + 1 <;>
        simp [CircuitBreaker.call, hc, hstate, hth]
  · have hf : cb.failureThreshold ≤ cb.failures := h1 hstate
    by_cases hcool : now - cb.lastFailTime < cb.timeout
    · simpa [CircuitBreaker.call, hstate, hcool] using hf
    · cases b
      · simp [CircuitBreaker.call, hstate, hcool]
      · have hth : cb.failureThreshold ≤ cb.failures + 1 := by omega
        simp [CircuitBreaker.call, hstate, hcool, hth]
  · exact absurd hstate h2

/-- Invariant of every reachable breaker: whenever the state is Open the
failure counter has reached the threshold, and between calls the breaker is
never left in HalfOpen (the probe's own outcome resolves it before the
mutex is released). -/
lemma reachable_open_failures {cb : CircuitBreaker} (h : cb.Reachable) :
    (cb.state = CircuitState.opened → cb.failureThreshold ≤ cb.failures) ∧
    cb.state ≠ CircuitState.halfOpen := by
  induction h with
  | init threshold timeout => simp [CircuitBreaker.init]
  | step cb m now b _ ih => exact call_preserves_invariant cb m now b ih.1 ih.2
  | reset cb _ _ => simp [CircuitBreaker.reset]

/-- Claim C2: a `Call` on a reachable Open breaker whose cooldown has
elapsed (it first moves the breaker to HalfOpen internally) invokes the
operation; on success the breaker ends Closed with zero failures, on
failure it ends Open with `lastFailTime` set to the call instant, so the
cooldown restarts. -/
theorem open_breaker_probe_after_cooldown
    (cb : CircuitBreaker) (m : ServiceMetrics) (now : Int) (opFails : Bool)
    (hreach : cb.Reachable)
    (hopen : cb.state = CircuitState.opened)
    (hcool : cb.timeout ≤ now - cb.lastFailTime) :
    (cb.call m now opFails).invoked = true ∧
    (opFails = false →
      (cb.call m now opFails).cb.state = CircuitState.closed ∧
      (cb.call m now opFails).cb.failures = 0) ∧
    (opFails = true →
      (cb.call m now opFails).cb.state = CircuitState.opened ∧
      (cb.call m now opFails).cb.lastFailTime = now) := by
  have hinv := (reachable_open_failures hreach).1 hopen
  have hncool : ¬ now - cb.lastFailTime < cb.timeout := by omega
  cases opFails
  · simp [CircuitBreaker.call, hopen, hncool]
  · have hth : cb.failureThreshold ≤ cb.failures + 1 := by omega
    simp [CircuitBreaker.call, hopen, hncool, hth]

/-- Witness for C2: breaker with threshold 1, cooldown 60, opened by a
failing call at instant 0; the probe at instant 60 closes it on success and
re-opens it (restarting the cooldown from 60) on failure. -/
theorem open_breaker_probe_after_cooldown_witness :
    ((((CircuitBreaker.init 1 60).call ServiceMetrics.init 0 true).cb.call
        ServiceMetrics.init 60 false).cb.state = CircuitState.closed ∧
      (((CircuitBreaker.init 1 60).call ServiceMetrics.init 0 true).cb.call
        ServiceMetrics.init 60 false).cb.failures = 0) ∧
    ((((CircuitBreaker.init 1 60).call ServiceMetrics.init 0 true).cb.call
        ServiceMetrics.init 60 true).cb.state = CircuitState.opened ∧
      (((CircuitBreaker.init 1 60).call ServiceMetrics.init 0 true).cb.call
        ServiceMetrics.init 60 true).cb.lastFailTime = 60) := by
  have hr : ((CircuitBreaker.init 1 60).call ServiceMetrics.init 0 true).cb.Reachable :=
    CircuitBreaker.Reachable.step _ _ 0 true (CircuitBreaker.Reachable.init 1 60)
  have h1 := open_breaker_probe_after_cooldown _ ServiceMetrics.init 60 false hr
    (by decide) (by decide)
  have h2 := open_breaker_probe_after_cooldown _ ServiceMetrics.init 60 true hr
    (by decide) (by decide)
  exact ⟨h1.2.1 rfl, h2.2.2 rfl⟩

/-- Claim C9 counterexample: a breaker opened by a failing call at instant 0
(threshold 1, cooldown 60) fast-rejects a call at instant 30, and that
rejected call leaves the per-service metrics completely unchanged: the
total-call counter stays 1 (not 2) and the last-call timestamp stays 0
(not 30), refuting "updated on every invocation of Call". -/
theorem fast_reject_skips_metrics_counterexample :
    (((CircuitBreaker.init 1 60).call ServiceMetrics.init 0 true).cb.call
        ((CircuitBreaker.init 1 60).call ServiceMetrics.init 0 true).metrics
        30 true).outcome = CallOutcome.circuitOpenErr ∧
    (((CircuitBreaker.init 1 60).call ServiceMetrics.init 0 true).cb.call
        ((CircuitBreaker.init 1 60).call ServiceMetrics.init 0 true).metrics
        30 true).metrics.totalCalls = 1 ∧
    ¬ (((CircuitBreaker.init 1 60).call ServiceMetrics.init 0 true).cb.call
        ((CircuitBreaker.init 1 60).call ServiceMetrics.init 0 true).metrics
        30 true).metrics.totalCalls =
      ((CircuitBreaker.init 1 60).call ServiceMetrics.init 0 true).metrics.totalCalls + 1 ∧
    ¬ (((CircuitBreaker.init 1 60).call ServiceMetrics.init 0 true).cb.call
        ((CircuitBreaker.init 1 60).call ServiceMetrics.init 0 true).metrics
        30 true).metrics.lastCallTime = 30 := by decide

/-- Claim C9 amended: the per-service metrics are recorded exactly on the
calls that invoke the operation.  A call fast-rejected because the circuit
is Open within cooldown returns at once with metrics untouched; every other
call increments the total-call counter and sets the last-call timestamp. -/
theorem metrics_updated_only_when_invoked
    (cb : CircuitBreaker) (m : ServiceMetrics) (now : Int) (b : Bool) :
    (cb.state = CircuitState.opened ∧ now - cb.lastFailTime < cb.timeout →
      (cb.call m now b).metrics = m ∧ (cb.call m now b).invoked = false) ∧
    (¬ (cb.state = CircuitState.opened ∧ now - cb.lastFailTime < cb.timeout) →
      (cb.call m now b).metrics.totalCalls = m.totalCalls + 1 ∧
      (cb.call m now b).metrics.lastCallTime = now ∧
      (cb.call m now b).invoked = true) := by
  constructor
  · intro h
    simp [CircuitBreaker.call, h]
  · intro h
    simp only [CircuitBreaker.call, if_neg h]
    cases b <;> simp

/-- Witness for the amended C9: a fast-rejected call at instant 30 keeps
the metrics of the opening call, and a fresh breaker's first call bumps the
total-call counter to 1. -/
theorem metrics_updated_only_when_invoked_witness :
    (((CircuitBreaker.init 1 60).call ServiceMetrics.init 0 true).cb.call
        ((CircuitBreaker.init 1 60).call ServiceMetrics.init 0 true).metrics
        30 true).metrics =
      ((CircuitBreaker.init 1 60).call ServiceMetrics.init 0 true).metrics ∧
    ((CircuitBreaker.init 1 60).call ServiceMetrics.init 0 true).metrics.totalCalls =
      ServiceMetrics.init.totalCalls + 1 := by
  have h1 := metrics_updated_only_when_invoked
    ((CircuitBreaker.init 1 60).call ServiceMetrics.init 0 true).cb
    ((CircuitBreaker.init 1 60).call ServiceMetrics.init 0 true).metrics 30 true
  have h2 := metrics_updated_only_when_invoked
    (CircuitBreaker.init 1 60) ServiceMetrics.init 0 true
  exact ⟨(h1.1 (by decide)).1, (h2.2 (by decide)).1⟩

/-- Outcome of the raw HTTP exchange inside `makeHTTPCall`: either
`HTTPClient.Do` fails (transport error) or a response arrives with a status
code and a body that the JSON decoder accepts or not. -/
inductive HTTPResult where
  | transportErr
  | response (status : Int) (decodeOk : Bool)
deriving DecidableEq, Repr

/-- The environment of one `makeHTTPCall`: whether `json.Marshal` of the
request payload succeeds, whether `http.NewRequest` succeeds, and the
downstream exchange outcome. -/
structure HTTPExchange where
  marshalOk : Bool
  requestOk : Bool
  result : HTTPResult
deriving DecidableEq, Repr

/-- The error classes `makeHTTPCall` can return. -/
inductive DispatchErr where
  | marshalErr
  | requestErr
  | transportErr
  | decodeErr
  | statusErr (status : Int)
deriving DecidableEq, Repr

/-- `ExternalService.makeHTTPCall` from internal/services/external.go:
marshal, build request, perform the call, decode the body, then check the
status.  The body is decoded before the status check, and any status ≥ 400
(not only the 5xx server-error range) yields a non-nil error. -/
def makeHTTPCall (ex : HTTPExchange) : Option DispatchErr :=
  if ex.marshalOk = false then some DispatchErr.marshalErr
  else if ex.requestOk = false then some DispatchErr.requestErr
  else match ex.result with
    | HTTPResult.transportErr => some DispatchErr.transportErr
    | HTTPResult.response status decodeOk =>
      if decodeOk = false then some DispatchErr.decodeErr
      else if 400 ≤ status then some (DispatchErr.statusErr status)
      else none

/-- The breaker-protected part of `ExternalService.Call`: the wrapped `fn`
returns exactly `makeHTTPCall`'s error, so the breaker counts a failure
whenever `makeHTTPCall` returns a non-nil error of any class. -/
def ExternalService.call (cb : CircuitBreaker) (m : ServiceMetrics)
    (now : Int) (ex : HTTPExchange) : CallResult :=
  cb.call m now (makeHTTPCall ex).isSome

/-- Claim C3 counterexample: with the default threshold 5 and a fresh
breaker, a transport-successful call whose 200-status body fails to decode
is classified as a decode error AND increments the breaker failure counter
to 1, whereas the same call with a decodable body leaves it at 0 — the
breaker state after a decode failure is not the same as after a success. -/
theorem decode_error_trips_breaker_counterexample :
    makeHTTPCall ⟨true, true, HTTPResult.response 200 false⟩ =
      some DispatchErr.decodeErr ∧
    (ExternalService.call (CircuitBreaker.init 5 60) ServiceMetrics.init 0
        ⟨true, true, HTTPResult.response 200 false⟩).cb.failures = 1 ∧
    (ExternalService.call (CircuitBreaker.init 5 60) ServiceMetrics.init 0
        ⟨true, true, HTTPResult.response 200 true⟩).cb.failures = 0 ∧
    (ExternalService.call (CircuitBreaker.init 5 60) ServiceMetrics.init 0
        ⟨true, true, HTTPResult.response 200 false⟩).metrics.failureCalls = 1 := by
  decide

/-- Claim C3 amended: a transport-successful response whose body fails to
decode yields the distinct decode error, but it IS counted as a breaker
failure exactly like a transport error: on any non-fast-rejected call the
failure counter and the failure-call metric both increment (the breaker
increments on every non-nil error; likewise any status ≥ 400, not only
5xx, is an error — shown on status 404). -/
theorem decode_error_counts_as_breaker_failure
    (cb : CircuitBreaker) (m : ServiceMetrics) (now : Int) (status : Int)
    (hnotopen : ¬ (cb.state = CircuitState.opened ∧ now - cb.lastFailTime < cb.timeout)) :
    makeHTTPCall ⟨true, true, HTTPResult.response status false⟩ =
      some DispatchErr.decodeErr ∧
    (ExternalService.call cb m now ⟨true, true, HTTPResult.response status false⟩).cb.failures =
      cb.failures + 1 ∧
    (ExternalService.call cb m now ⟨true, true, HTTPResult.response status false⟩).metrics.failureCalls =
      m.failureCalls + 1 ∧
    (ExternalService.call cb m now ⟨true, true, HTTPResult.response status false⟩).outcome =
      CallOutcome.opErr ∧
    makeHTTPCall ⟨true, true, HTTPResult.response 404 true⟩ =
      some (DispatchErr.statusErr 404) := by
  refine ⟨rfl, ?_, ?_, ?_, by decide⟩ <;>
  · simp only [ExternalService.call, makeHTTPCall, CircuitBreaker.call, if_neg hnotopen]
    by_cases hs : cb.state = CircuitState.opened <;> simp [hs]

/-- Witness for the amended C3: fresh breaker with threshold 5, call at
instant 0 with an undecodable 200 response. -/
theorem decode_error_counts_as_breaker_failure_witness :
    (ExternalService.call (CircuitBreaker.init 5 60) ServiceMetrics.init 0
        ⟨true, true, HTTPResult.response 200 false⟩).cb.failures =
      (CircuitBreaker.init 5 60).failures + 1 ∧
    (ExternalService.call (CircuitBreaker.init 5 60) ServiceMetrics.init 0
        ⟨true, true, HTTPResult.response 200 false⟩).outcome = CallOutcome.opErr := by
  have h := decode_error_counts_as_breaker_failure (CircuitBreaker.init 5 60)
    ServiceMetrics.init 0 200 (by decide)
  exact ⟨h.2.1, h.2.2.2.1⟩

/-- A token bucket as in internal/middleware: remaining tokens and the
instant of the last full refill. -/
structure Bucket where
  tokens : Int
  lastRefill : Int
deriving DecidableEq, Repr

/-- A `RateLimiter`'s configuration: `rate` requests per `interval`. -/
structure RateLimiter where
  rate : Int
  interval : Int
deriving DecidableEq, Repr

/-- `RateLimiter.Allow` for one key: a missing bucket is created full with
`lastRefill := now`; if `interval` has elapsed since `lastRefill` the bucket
is reset to the full `rate` (a discrete full refill, not a trickle); then a
remaining token admits the request and is consumed, otherwise the request
is denied and the bucket is untouched. -/
def RateLimiter.allow (rl : RateLimiter) (b? : Option Bucket) (now : Int) :
    Bool × Bucket :=
  let b := match b? with
    | none => { tokens := rl.rate, lastRefill := now }
    | some b => b
  let b := if rl.interval ≤ now - b.lastRefill
    then { tokens := rl.rate, lastRefill := now } else b
  if 0 < b.tokens then (true, { b with tokens := b.tokens - 1 })
  else (false, b)

/-- Consecutive `Allow` calls for one key at the given instants. -/
def RateLimiter.allowSeq (rl : RateLimiter) (b : Bucket) :
    List Int → List Bool × Bucket
  | [] => ([], b)
  | t :: ts =>
    let r := rl.allow (some b) t
    let rest := rl.allowSeq r.2 ts
    (r.1 :: rest.1, rest.2)

/-- The first `Allow` for an unseen key at instant `t` behaves exactly like
an `Allow` on the freshly created full bucket. -/
lemma allow_none_eq_fresh (rl : RateLimiter) (t : Int) :
    rl.allow none t = rl.allow (some { tokens := rl.rate, lastRefill := t }) t := rfl

lemma allowSeq_drain (rl : RateLimiter) (ts : List Int) (b : Bucket)
    (hin : ∀ t ∈ ts, t - b.lastRefill < rl.interval)
    (hlen : (ts.length : Int) ≤ b.tokens) :
    (rl.allowSeq b ts).1 = List.replicate ts.length true ∧
    (rl.allowSeq b ts).2.tokens = b.tokens - ts.length ∧
    (rl.allowSeq b ts).2.lastRefill = b.lastRefill := by
  induction ts generalizing b with
  | nil => exact ⟨rfl, by simp [RateLimiter.allowSeq], rfl⟩
  | cons t ts ih =>
    have hnorefill : ¬ rl.interval ≤ t - b.lastRefill := by
      have := hin t (List.mem_cons_self t ts)
      omega
    have hpos : 0 < b.tokens := by
      simp only [List.length_cons] at hlen
      push_cast at hlen
      omega
    have hstep : rl.allow (some b) t = (true, { b with tokens := b.tokens - 1 }) := by
      simp [RateLimiter.allow, hnorefill, hpos]
    have hrec := ih { b with tokens := b.tokens - 1 }
      (fun u hu => hin u (List.mem_cons_of_mem t hu))
      (by simp only [List.length_cons] at hlen; push_cast at hlen ⊢; omega)
    simp only [RateLimiter.allowSeq, hstep]
    refine ⟨by rw [hrec.1]; simp [List.replicate], ?_, hrec.2.2⟩
    rw [hrec.2.1]
    simp only [List.length_cons]
    push_cast
    ring

/-- Claim C4: with rate R > 0 over interval I, starting from the
fresh bucket the first `Allow` creates at instant `t0`: R calls within I of
`t0` all return true and drain the bucket to 0; one more call within the
same window returns false; and once I has elapsed (call at `u1`), the
bucket is fully reset to R, so that call and R-1 further calls within I of
`u1` all return true again. -/
theorem rate_limiter_full_refill_window (rl : RateLimiter)
    (t0 tdeny u1 : Int) (ts us : List Int)
    (hR : 0 < rl.rate)
    (hlen : (ts.length : Int) = rl.rate)
    (hin : ∀ t ∈ ts, t - t0 < rl.interval)
    (hdeny : tdeny - t0 < rl.interval)
    (hu1 : rl.interval ≤ u1 - t0)
    (hulen : (us.length : Int) = rl.rate - 1)
    (huin : ∀ u ∈ us, u - u1 < rl.interval) :
    (rl.allowSeq { tokens := rl.rate, lastRefill := t0 } ts).1 =
      List.replicate ts.length true ∧
    (rl.allow (some (rl.allowSeq { tokens := rl.rate, lastRefill := t0 } ts).2) tdeny).1 =
      false ∧
    (rl.allowSeq
        (rl.allow (some (rl.allowSeq { tokens := rl.rate, lastRefill := t0 } ts).2) tdeny).2
        (u1 :: us)).1 =
      List.replicate (u1 :: us).length true := by
  have hdrain := allowSeq_drain rl ts { tokens := rl.rate, lastRefill := t0 }
    (by simpa using hin) (by show (ts.length : Int) ≤ rl.rate; omega)
  have htokB : (rl.allowSeq { tokens := rl.rate, lastRefill := t0 } ts).2.tokens =
      rl.rate - (ts.length : Int) := hdrain.2.1
  have hrefB : (rl.allowSeq { tokens := rl.rate, lastRefill := t0 } ts).2.lastRefill =
      t0 := hdrain.2.2
  have hdenystep :
      rl.allow (some (rl.allowSeq { tokens := rl.rate, lastRefill := t0 } ts).2) tdeny =
        (false, (rl.allowSeq { tokens := rl.rate, lastRefill := t0 } ts).2) := by
    have h1 : ¬ rl.interval ≤
        tdeny - (rl.allowSeq { tokens := rl.rate, lastRefill := t0 } ts).2.lastRefill := by
      rw [hrefB]; omega
    have h2 : ¬ (0 : Int) <
        (rl.allowSeq { tokens := rl.rate, lastRefill := t0 } ts).2.tokens := by
      rw [htokB]; omega
    simp [RateLimiter.allow, h1, h2]
  have hu1step :
      rl.allow (some (rl.allowSeq { tokens := rl.rate, lastRefill := t0 } ts).2) u1 =
        (true, { tokens := rl.rate - 1, lastRefill := u1 }) := by
    have h1 : rl.interval ≤
        u1 - (rl.allowSeq { tokens := rl.rate, lastRefill := t0 } ts).2.lastRefill := by
      rw [hrefB]; omega
    simp [RateLimiter.allow, h1, hR]
  have hdrain2 := allowSeq_drain rl us { tokens := rl.rate - 1, lastRefill := u1 }
    (by simpa using huin) (by show (us.length : Int) ≤ rl.rate - 1; omega)
  refine ⟨hdrain.1, ?_, ?_⟩
  · rw [hdenystep]
  · rw [hdenystep]
    simp only [RateLimiter.allowSeq, hu1step, List.length_cons]
    rw [hdrain2.1]
    simp [List.replicate_succ]

/-- Witness for C4: rate 2 per 60; calls at 0 and 10 are allowed, the call
at 20 is denied, and after the refill boundary the calls at 60 and 70 are
allowed again. -/
theorem rate_limiter_full_refill_window_witness :
    (RateLimiter.allowSeq ⟨2, 60⟩ { tokens := 2, lastRefill := 0 } [0, 10]).1 =
      List.replicate 2 true ∧
    (RateLimiter.allow ⟨2, 60⟩
        (some (RateLimiter.allowSeq ⟨2, 60⟩ { tokens := 2, lastRefill := 0 } [0, 10]).2)
        20).1 = false ∧
    (RateLimiter.allowSeq ⟨2, 60⟩
        (RateLimiter.allow ⟨2, 60⟩
          (some (RateLimiter.allowSeq ⟨2, 60⟩ { tokens := 2, lastRefill := 0 } [0, 10]).2)
          20).2
        [60, 70]).1 = List.replicate 2 true := by
  have h := rate_limiter_full_refill_window ⟨2, 60⟩ 0 20 60 [0, 10] [70]
    (by decide) (by decide) (by decide) (by decide) (by decide) (by decide) (by decide)
  exact ⟨h.1, h.2.1, h.2.2⟩

/-- The JSON body `RateLimitByIP` sends on rejection: HTTP 429 status, the
stable code string, and the `retry_after` field. -/
structure RateLimitResponse where
  status : Int
  code : String
  retryAfter : Int
deriving DecidableEq, Repr

/-- What the middleware does with a request: abort with a rejection
response, or pass it along the chain. -/
inductive MiddlewareOutcome where
  | rejected (resp : RateLimitResponse)
  | passed
deriving DecidableEq, Repr

/-- `RateLimitByIP` from internal/middleware: one request for the caller's
key; on denial it aborts with HTTP 429 and `retry_after :=
interval.Seconds()` — the constant configured interval, independent of the
bucket's refill clock. -/
def RateLimitByIP (rl : RateLimiter) (b? : Option Bucket) (now : Int) :
    MiddlewareOutcome × Bucket :=
  let r := rl.allow b? now
  if r.1 then (MiddlewareOutcome.passed, r.2)
  else (MiddlewareOutcome.rejected
    { status := 429, code := "RATE_LIMIT_EXCEEDED", retryAfter := rl.interval }, r.2)

/-- The retry-after hint that the spec describes (the remaining time from
the moment of rejection until the bucket's next refill boundary), for
comparing against the hint `RateLimitByIP` actually returns.  Modelled from
the spec: "retry-after hint equal to the remaining time until the next
refill boundary," i.e. interval minus the time elapsed since `lastRefill`. -/
def specRetryAfter (rl : RateLimiter) (b : Bucket) (now : Int) : Int :=
  rl.interval - (now - b.lastRefill)

/-- Claim C5 counterexample: limiter with rate 1 per 60; the bucket drained
at instant 0 rejects a request at instant 30 with `retry_after = 60` (the
full interval), while the remaining time to the next refill boundary is
30 — the returned value is the constant interval, not the remaining time. -/
theorem retry_after_constant_counterexample :
    (RateLimitByIP ⟨1, 60⟩ (some ⟨0, 0⟩) 30).1 =
      MiddlewareOutcome.rejected
        { status := 429, code := "RATE_LIMIT_EXCEEDED", retryAfter := 60 } ∧
    specRetryAfter ⟨1, 60⟩ ⟨0, 0⟩ 30 = 30 ∧
    (60 : Int) ≠ 30 := by
  exact ⟨rfl, rfl, by decide⟩

/-- Claim C5 amended: every request the rate-limit middleware rejects is
answered with HTTP 429 and a retry-after equal to the constant configured
interval (in seconds), whatever the elapsed time since the bucket's last
refill. -/
theorem retry_after_is_constant_interval (rl : RateLimiter) (b? : Option Bucket)
    (now : Int) (resp : RateLimitResponse) (b' : Bucket)
    (h : RateLimitByIP rl b? now = (MiddlewareOutcome.rejected resp, b')) :
    resp.retryAfter = rl.interval ∧ resp.status = 429 := by
  simp only [RateLimitByIP] at h
  split at h
  · simp at h
  · simp only [Prod.mk.injEq, MiddlewareOutcome.rejected.injEq] at h
    rw [← h.1]
    exact ⟨rfl, rfl⟩

/-- Witness for the amended C5: the rejection at instant 30 carries
retry-after 60, the configured interval. -/
theorem retry_after_is_constant_interval_witness :
    ({ status := 429, code := "RATE_LIMIT_EXCEEDED", retryAfter := 60 } :
      RateLimitResponse).retryAfter = (⟨1, 60⟩ : RateLimiter).interval ∧
    ({ status := 429, code := "RATE_LIMIT_EXCEEDED", retryAfter := 60 } :
      RateLimitResponse).status = 429 :=
  retry_after_is_constant_interval ⟨1, 60⟩ (some ⟨0, 0⟩) 30 _ ⟨0, 0⟩ rfl

/-- The failure classes of `ValidateJWT` in internal/middleware. -/
inductive AuthError where
  | secretNotSet
  | revoked
  | parseFailed
  | expired
deriving DecidableEq, Repr

/-- The `Claims` struct: custom fields plus the registered claims, of which
only the expiry instant is read by this code.  `expiresAt = none` models a
token whose payload carries no exp claim (`ExpiresAt == nil`). -/
structure JwtClaims where
  userID : String
  username : String
  email : String
  roles : List String
  expiresAt : Option Int
deriving DecidableEq, Repr

/-- The revocation store `tokenBlacklist`: token string to original expiry. -/
def isBlacklisted (blacklist : List (String × Int)) (tokenString : String) : Bool :=
  blacklist.any (fun e => e.1 = tokenString)

/-- `BlacklistToken`: inserts the token with its expiry into the store. -/
def BlacklistToken (blacklist : List (String × Int)) (tokenString : String)
    (expiresAt : Int) : List (String × Int) :=
  (tokenString, expiresAt) :: blacklist

/-- `ValidateJWT` from internal/middleware.  The parse step
(`jwt.ParseWithClaims` with the HMAC-only keyfunc) is abstracted by its
result: `none` when the token is structurally invalid, wrongly signed or
not HMAC-signed (the source returns that error), `some claims` when parsing
and signature verification succeed.  jwt/v5 accepts a correctly signed
token without an exp claim, yielding claims with `expiresAt = none`.  Check
order mirrors the source: secret initialized, blacklist, parse, then the
expiry test `ExpiresAt != nil && ExpiresAt.Before(now)`. -/
def ValidateJWT (secretKey : String) (blacklist : List (String × Int))
    (tokenString : String) (parseResult : Option JwtClaims) (now : Int) :
    Except AuthError JwtClaims :=
  if secretKey.length = 0 then Except.error AuthError.secretNotSet
  else if isBlacklisted blacklist tokenString then Except.error AuthError.revoked
  else match parseResult with
    | none => Except.error AuthError.parseFailed
    | some claims =>
      match claims.expiresAt with
      | some e =>
        if e < now then Except.error AuthError.expired else Except.ok claims
      | none => Except.ok claims

/-- Claim C6: any token present in the revocation store is rejected with
the revoked error, whatever the parse outcome (signature valid or not) and
whatever the current time (expiry passed or not) — the blacklist check runs
before and independently of signature and expiry checks.  The only earlier
check is that the JWT secret has been initialized. -/
theorem revoked_token_rejected_before_signature_and_expiry
    (secretKey : String) (blacklist : List (String × Int)) (tokenString : String)
    (parseResult : Option JwtClaims) (now : Int)
    (hsecret : secretKey.length ≠ 0)
    (hrev : isBlacklisted blacklist tokenString = true) :
    ValidateJWT secretKey blacklist tokenString parseResult now =
      Except.error AuthError.revoked := by
  simp [ValidateJWT, hsecret, hrev]

/-- Witness for C6: the revoked token "tok" is rejected as revoked both
when it does not even parse and when it parses with a long-gone expiry. -/
theorem revoked_token_rejected_before_signature_and_expiry_witness :
    ValidateJWT "secret" [("tok", 100)] "tok" none 0 =
      Except.error AuthError.revoked ∧
    ValidateJWT "secret" [("tok", 100)] "tok"
        (some { userID := "u1", username := "alice", email := "", roles := [],
                expiresAt := some 100 }) 5000 =
      Except.error AuthError.revoked := by
  constructor <;>
    exact revoked_token_rejected_before_signature_and_expiry "secret"
      [("tok", 100)] "tok" _ _ (by decide) (by decide)

/-- Result of the Logout handler: the HTTP status it answers with and the
revocation store after it ran. -/
structure LogoutResult where
  status : Int
  blacklist : List (String × Int)
deriving DecidableEq, Repr

/-- `AuthHandlers.Logout` from internal/handlers: reads the token from the
request context (set by the auth middleware), forwards a logout call to the
central service, and responds 200 on success.  No path calls
`middleware.BlacklistToken` — that function has no caller anywhere in the
repository — so the revocation store is returned unchanged. -/
def Logout (tokenInCtx : Option String) (centralCallFails : Bool)
    (blacklist : List (String × Int)) : LogoutResult :=
  match tokenInCtx with
  | none => { status := 401, blacklist := blacklist }
  | some _ =>
    if centralCallFails then { status := 500, blacklist := blacklist }
    else { status := 200, blacklist := blacklist }

/-- Claim C7 (code bug, evaluated at the failing input): a successful
authenticated logout of token "tok" answers 200 yet leaves the revocation
store unchanged on every path, so re-validating "tok" immediately
afterwards succeeds instead of failing with the revoked error. -/
theorem logout_does_not_revoke :
    (Logout (some "tok") false []).status = 200 ∧
    (Logout (some "tok") false []).blacklist = [] ∧
    (∀ (t : Option String) (f : Bool) (bl : List (String × Int)),
      (Logout t f bl).blacklist = bl) ∧
    ValidateJWT "secret" (Logout (some "tok") false []).blacklist "tok"
        (some { userID := "u1", username := "alice", email := "", roles := [],
                expiresAt := some 1000 }) 0 =
      Except.ok { userID := "u1", username := "alice", email := "", roles := [],
                  expiresAt := some 1000 } := by
  refine ⟨rfl, rfl, ?_, rfl⟩
  intro t f bl
  cases t <;> cases f <;> rfl

/-- The caller identity (`models.UserInfo`) the auth middleware builds. -/
structure UserInfo where
  userID : String
  username : String
  email : String
  roles : List String
  exp : Int
deriving DecidableEq, Repr

/-- The identity construction in `JWTAuthMiddleware` after `ValidateJWT`
succeeds: it reads `claims.ExpiresAt.Unix()` unconditionally.  When
`expiresAt` is `none` (`ExpiresAt == nil`) the Go code dereferences a nil
pointer and panics; that fault is modelled as `none` — no identity value is
produced. -/
def buildUserInfo (claims : JwtClaims) : Option UserInfo :=
  match claims.expiresAt with
  | some e =>
    some { userID := claims.userID, username := claims.username, email := claims.email, roles := claims.roles, exp := e }
  | none => none

/-- Claim C10 (code bug, evaluated at the failing input): a correctly
signed, unrevoked token whose payload has no exp claim parses to claims
with `expiresAt = none`; `ValidateJWT` accepts it — its expiry check is
`ExpiresAt != nil && …`, which skips a nil expiry — yet the middleware's
identity construction has no value: exactly the nil-pointer dereference
the claim says cannot happen. -/
theorem validate_accepts_nil_expiry_token :
    ValidateJWT "secret" [] "noexp"
        (some { userID := "u1", username := "alice", email := "", roles := [],
                expiresAt := none }) 0 =
      Except.ok { userID := "u1", username := "alice", email := "", roles := [],
                  expiresAt := none } ∧
    buildUserInfo { userID := "u1", username := "alice", email := "", roles := [],
                    expiresAt := none } = none :=
  ⟨rfl, rfl⟩

/-- The middleware kinds that routes.Setup registers on its route groups. -/
inductive Middleware where
  | strictRateLimitByIP
  | jwtAuth
  | rateLimitByUser
  | requireRoles
deriving DecidableEq, Repr

/-- The guard chain of the /auth group in routes.Setup, in registration
order (gin runs handlers in the order `Use` was called): only the strict
per-IP limiter, guarded by the RateLimitEnabled flag. -/
def authGroupChain (rateLimitEnabled : Bool) : List Middleware :=
  if rateLimitEnabled then [Middleware.strictRateLimitByIP] else []

/-- The guard chain of the protected /api/v1 group: `JWTAuthMiddleware` is
registered first, `RateLimitByUser` after it (when enabled). -/
def protectedGroupChain (rateLimitEnabled : Bool) : List Middleware :=
  Middleware.jwtAuth ::
    (if rateLimitEnabled then [Middleware.rateLimitByUser] else [])

/-- The guard chain of the /admin group: `JWTAuthMiddleware`, then
`RequireRoles`, then `RateLimitByUser` (when enabled). -/
def adminGroupChain (rateLimitEnabled : Bool) : List Middleware :=
  Middleware.jwtAuth :: Middleware.requireRoles ::
    (if rateLimitEnabled then [Middleware.rateLimitByUser] else [])

/-- The per-request facts the guards test: does the bearer token validate,
is the caller's limiter key over quota, does the caller hold a required
role. -/
structure GwRequest where
  tokenValid : Bool
  overQuota : Bool
  hasRole : Bool
deriving DecidableEq, Repr

/-- Terminal verdicts of the guard chain. -/
inductive Verdict where
  | rejected401
  | rejected403
  | rejected429
  | handled
deriving DecidableEq, Repr

/-- One middleware applied to a request: `some v` aborts with verdict `v`,
`none` passes the request along. -/
def runMiddleware (req : GwRequest) : Middleware → Option Verdict
  | Middleware.strictRateLimitByIP =>
    if req.overQuota then some Verdict.rejected429 else none
  | Middleware.jwtAuth =>
    if req.tokenValid then none else some Verdict.rejected401
  | Middleware.rateLimitByUser =>
    if req.overQuota then some Verdict.rejected429 else none
  | Middleware.requireRoles =>
    if req.hasRole then none else some Verdict.rejected403

/-- Runs a guard chain in order.  The Bool records whether token validation
(`JWTAuthMiddleware`, hence `ValidateJWT`) was performed on the request. -/
def runChain (req : GwRequest) : List Middleware → Verdict × Bool
  | [] => (Verdict.handled, false)
  | mw :: rest =>
    let validated := decide (mw = Middleware.jwtAuth)
    match runMiddleware req mw with
    | some v => (v, validated)
    | none =>
      let r := runChain req rest
      (r.1, validated || r.2)

/-- Claim C8 counterexample: on the protected group (the claim's cited
lines) an over-quota request with a valid token is rejected 429 only AFTER
token validation ran (second component true), and an over-quota request
with an invalid token is rejected 401 — authentication work was spent on
rate-limited traffic, and auth, not the quota check, ran first. -/
theorem auth_runs_before_rate_limit_counterexample :
    runChain ⟨true, true, true⟩ (protectedGroupChain true) =
      (Verdict.rejected429, true) ∧
    runChain ⟨false, true, true⟩ (protectedGroupChain true) =
      (Verdict.rejected401, true) := by decide

/-- Claim C8 amended: only on the /auth group (login/refresh) is the rate
limit the first and only guard: an over-quota request is rejected 429 with
no token validation.  On the protected and admin groups `JWTAuthMiddleware`
is registered before the per-user rate limiter, so an invalid token gives
401 and even an over-quota rejection is reached only after token
validation was performed. -/
theorem rate_limit_order_per_group (req : GwRequest) :
    (req.overQuota = true →
      runChain req (authGroupChain true) = (Verdict.rejected429, false)) ∧
    (req.tokenValid = false →
      runChain req (protectedGroupChain true) = (Verdict.rejected401, true)) ∧
    (req.tokenValid = true → req.overQuota = true →
      runChain req (protectedGroupChain true) = (Verdict.rejected429, true)) ∧
    (req.tokenValid = true → req.hasRole = true → req.overQuota = true →
      runChain req (adminGroupChain true) = (Verdict.rejected429, true)) := by
  obtain ⟨tv, oq, hr⟩ := req
  cases tv <;> cases oq <;> cases hr <;> exact (by decide)

/-- Witness for the amended C8: an over-quota request is rejected 429 with
no auth work on the /auth group, and rejected 401 after auth work on the
protected group when its token is invalid. -/
theorem rate_limit_order_per_group_witness :
    runChain ⟨true, true, true⟩ (authGroupChain true) =
      (Verdict.rejected429, false) ∧
    runChain ⟨false, true, true⟩ (protectedGroupChain true) =
      (Verdict.rejected401, true) := by
  have h := rate_limit_order_per_group ⟨true, true, true⟩
  have h' := rate_limit_order_per_group ⟨false, true, true⟩
  exact ⟨h.1 rfl, h'.2.1 rfl⟩
